import Mathlib

/-!
Verification of the ml-tasks evaluation pipeline.

This file shallowly embeds the pipeline logic of the repository
(src/data_loader.py, src/models/kmeans_clusterer.py,
src/models/logistic_regression_classifier.py, src/visualizer.py,
src/main.py) and proves the behavioural claims about it.

Feature values are rationals, class labels and cluster indices are
naturals.  External statistical primitives (scikit-learn, scipy,
matplotlib) are embedded only to the extent the repository's code
depends on their contracts; where a claim is decided by library code
that is not part of the repository, the corresponding definition is
explicitly marked as modelled from the spec.
-/

/-! ## Exact-match accuracy (sklearn.metrics.accuracy_score)

`accuracy_score(y_true, y_pred)` as used by both model wrappers:
the fraction of positions where prediction equals ground truth.
Both wrappers call it on arrays of equal length. -/

def accuracy_score (yTrue yPred : List Nat) : ℚ :=
  (((yTrue.zip yPred).countP (fun p => p.1 == p.2) : Nat) : ℚ) / (yTrue.length : ℚ)

/-! ## K-Means accuracy (src/models/kmeans_clusterer.py, lines 56-81)

`KMeansClusterer.accuracy(X_train, y_train)` reads the fitted cluster
assignment `self.model.labels_` (one cluster index per training point;
here `clusters`) and the true labels `y_train` (here `ys`).  The
`X_train` argument is never used by the source method.  It builds a
`labels` array initialized by `np.zeros_like`, then for each
`i in range(10)` overwrites the masked positions with
`mode(y_train[mask])`, and returns `accuracy_score(y_train, labels)`. -/

/-- The labels of the points assigned to cluster `i`: `y_train[mask]`
with `mask = (labels_ == i)`. -/
def maskedLabels (clusters ys : List Nat) (i : Nat) : List Nat :=
  ((clusters.zip ys).filter (fun p => p.1 == i)).map Prod.snd

/-- `scipy.stats.mode(a, keepdims=False).mode`: the most common value of
the list, the smallest one in case of a tie (scipy's documented
tie-breaking).  On the empty input the fold returns the default 0. -/
def modeNat (l : List Nat) : Nat :=
  l.foldl (fun acc v =>
    if l.count acc < l.count v ∨ (l.count v = l.count acc ∧ v < acc) then v else acc)
    (l.headD 0)

namespace KMeansClusterer

/-- One iteration of the vote loop (lines 75-79): if cluster `i` is
non-empty (`np.any(mask)`, i.e. `i ∈ clusters`), the positions of its
members in the `labels` array are overwritten with the mode of the
members' true labels; otherwise `labels` is untouched. -/
def voteStep (clusters ys : List Nat) (labels : List Nat) (i : Nat) : List Nat :=
  if i ∈ clusters then
    (clusters.zip labels).map
      (fun p => if p.1 = i then modeNat (maskedLabels clusters ys i) else p.2)
  else labels

/-- The `labels` array after the whole loop: start from
`np.zeros_like(self.model.labels_)` and run the vote for
`i in range(10)` (lines 71-79). -/
def predictedLabels (clusters ys : List Nat) : List Nat :=
  (List.range 10).foldl (voteStep clusters ys) (List.replicate clusters.length 0)

/-- `KMeansClusterer.accuracy` (line 81): exact-match fraction of the
voted labels against the true labels. -/
def accuracy (clusters ys : List Nat) : ℚ :=
  accuracy_score ys (predictedLabels clusters ys)

end KMeansClusterer

/-! ## Spec-side recomputation of the clusterer accuracy

These definitions follow the words of the spec (section 4.5): build a
`ClusterLabelMap` by majority vote per cluster, map every point's
cluster index through it, compare exact-match.  They are compared with
the source-derived `KMeansClusterer.accuracy` in claim C1. -/

/-- ClusterLabelMap: cluster index to the majority (mode) true label of
the points assigned to that cluster. -/
def clusterLabelMap (clusters ys : List Nat) (c : Nat) : Nat :=
  modeNat (maskedLabels clusters ys c)

/-- Predicted label per point: its cluster index mapped through the
`ClusterLabelMap`. -/
def specPredictedLabels (clusters ys : List Nat) : List Nat :=
  clusters.map (clusterLabelMap clusters ys)

/-- Spec-side clusterer accuracy: exact-match fraction of the mapped
labels against the true labels. -/
def specClusterAccuracy (clusters ys : List Nat) : ℚ :=
  accuracy_score ys (specPredictedLabels clusters ys)

/-! ### Characterization of the vote loop -/

lemma zip_map_self_if (l : List Nat) (f : Nat → Nat) (i v : Nat) :
    (l.zip (l.map f)).map (fun p => if p.1 = i then v else p.2)
      = l.map (fun c => if c = i then v else f c) := by
  induction l with
  | nil => rfl
  | cons a t ih => simp only [List.map_cons, List.zip_cons_cons, ih]

lemma zip_map_self (l : List Nat) (f : Nat → Nat) :
    l.zip (l.map f) = l.map (fun a => (a, f a)) := by
  induction l with
  | nil => rfl
  | cons a t ih => simp only [List.map_cons, List.zip_cons_cons, ih]

lemma voteStep_map (clusters ys : List Nat) (f : Nat → Nat) (i : Nat) :
    KMeansClusterer.voteStep clusters ys (clusters.map f) i
      = if i ∈ clusters then
          clusters.map (fun c => if c = i then modeNat (maskedLabels clusters ys i) else f c)
        else clusters.map f := by
  unfold KMeansClusterer.voteStep
  by_cases h : i ∈ clusters
  · rw [if_pos h, if_pos h, zip_map_self_if]
  · rw [if_neg h, if_neg h]

lemma predictedLabels_foldl (clusters ys : List Nat) (m : Nat) :
    (List.range m).foldl (KMeansClusterer.voteStep clusters ys)
        (List.replicate clusters.length 0)
      = clusters.map (fun c => if c < m then clusterLabelMap clusters ys c else 0) := by
  induction m with
  | zero =>
    simp only [List.range_zero, List.foldl_nil, Nat.not_lt_zero, if_false]
    rw [List.map_const']
  | succ m ih =>
    rw [List.range_succ, List.foldl_append, ih, List.foldl_cons, List.foldl_nil,
      voteStep_map]
    by_cases hm : m ∈ clusters
    · rw [if_pos hm]
      refine List.map_congr_left ?_
      intro c _
      by_cases hcm : c = m
      · subst hcm
        have hlt : c < c + 1 := Nat.lt_succ_self c
        simp [clusterLabelMap, hlt]
      · have hiff : c < m + 1 ↔ c < m := by omega
        simp only [if_neg hcm, hiff]
    · rw [if_neg hm]
      refine List.map_congr_left ?_
      intro c hc
      have hcm : c ≠ m := fun e => hm (e ▸ hc)
      have hiff : c < m + 1 ↔ c < m := by omega
      simp only [hiff]

/-- The voted `labels` array assigns each point the mode of its own
cluster when the cluster index is below 10, and leaves the zero
initialization in place otherwise. -/
lemma predictedLabels_eq (clusters ys : List Nat) :
    KMeansClusterer.predictedLabels clusters ys
      = clusters.map (fun c => if c < 10 then clusterLabelMap clusters ys c else 0) :=
  predictedLabels_foldl clusters ys 10

/-- C1: For every input set of points and true labels (all cluster
indices in the fixed range 0..9 of the data model), the clusterer's
accuracy operation returns exactly the exact-match fraction obtained by
building the majority-vote ClusterLabelMap, mapping every point's
cluster index through it, and comparing against the true labels. -/
theorem kmeans_accuracy_matches_cluster_label_map (clusters ys : List Nat)
    (h10 : ∀ c ∈ clusters, c < 10) :
    KMeansClusterer.accuracy clusters ys = specClusterAccuracy clusters ys := by
  unfold KMeansClusterer.accuracy specClusterAccuracy
  have hp : KMeansClusterer.predictedLabels clusters ys = specPredictedLabels clusters ys := by
    rw [predictedLabels_eq]
    refine List.map_congr_left ?_
    intro c hc
    rw [if_pos (h10 c hc)]
  rw [hp]

/-- Witness for C1 at a concrete clustering. -/
theorem kmeans_accuracy_matches_cluster_label_map_witness :
    (∀ c ∈ [0, 0, 1, 9], c < 10) ∧
      KMeansClusterer.accuracy [0, 0, 1, 9] [5, 5, 7, 2]
        = specClusterAccuracy [0, 0, 1, 9] [5, 5, 7, 2] :=
  ⟨by decide, kmeans_accuracy_matches_cluster_label_map [0, 0, 1, 9] [5, 5, 7, 2] (by decide)⟩

/-- C2: if the clusterer accuracy recomputed through the
ClusterLabelMap equals 1, then every cluster is pure: every point's
true label coincides with the majority label of the cluster the point
is assigned to. -/
theorem kmeans_accuracy_one_implies_pure_clusters (clusters ys : List Nat)
    (hlen : clusters.length = ys.length) (h10 : ∀ c ∈ clusters, c < 10)
    (hacc : KMeansClusterer.accuracy clusters ys = 1) :
    ∀ p ∈ clusters.zip ys, p.2 = clusterLabelMap clusters ys p.1 := by
  have hplen : (KMeansClusterer.predictedLabels clusters ys).length = clusters.length := by
    rw [predictedLabels_eq, List.length_map]
  unfold KMeansClusterer.accuracy accuracy_score at hacc
  have hys : (ys.length : ℚ) ≠ 0 := by
    intro h0
    rw [h0, div_zero] at hacc
    exact zero_ne_one hacc
  have hcount :
      ((ys.zip (KMeansClusterer.predictedLabels clusters ys)).countP
        (fun p => p.1 == p.2) : ℚ) = (ys.length : ℚ) := by
    field_simp at hacc
    exact_mod_cast hacc
  have hcountN :
      (ys.zip (KMeansClusterer.predictedLabels clusters ys)).countP
        (fun p => p.1 == p.2)
        = (ys.zip (KMeansClusterer.predictedLabels clusters ys)).length := by
    rw [List.length_zip, hplen, ← hlen, min_self]
    rw [← hlen] at hcount
    exact_mod_cast hcount
  have hall := List.countP_eq_length.mp hcountN
  intro p hp
  obtain ⟨c, y⟩ := p
  have hmem : c ∈ clusters := (List.of_mem_zip hp).1
  have hswap : (y, c) ∈ ys.zip clusters := by
    rw [← List.zip_swap]
    exact List.mem_map.mpr ⟨(c, y), hp, rfl⟩
  have hzmap :
      ys.zip (KMeansClusterer.predictedLabels clusters ys)
        = (ys.zip clusters).map
            (Prod.map id (fun c => if c < 10 then clusterLabelMap clusters ys c else 0)) := by
    rw [predictedLabels_eq, List.zip_map_right]
  have hin :
      (y, if c < 10 then clusterLabelMap clusters ys c else 0)
        ∈ ys.zip (KMeansClusterer.predictedLabels clusters ys) := by
    rw [hzmap]
    exact List.mem_map.mpr ⟨(y, c), hswap, rfl⟩
  have := hall _ hin
  have heq : y = (if c < 10 then clusterLabelMap clusters ys c else 0) := by
    simpa using this
  rw [if_pos (h10 c hmem)] at heq
  exact heq

/-- Witness for C2 at a concrete pure clustering. -/
theorem kmeans_accuracy_one_implies_pure_clusters_witness :
    KMeansClusterer.accuracy [0, 0, 1] [5, 5, 7] = 1 ∧
      (5 : Nat) = clusterLabelMap [0, 0, 1] [5, 5, 7] 0 := by
  have hpred : KMeansClusterer.predictedLabels [0, 0, 1] [5, 5, 7] = [5, 5, 7] := by decide
  have hacc : KMeansClusterer.accuracy [0, 0, 1] [5, 5, 7] = 1 := by
    unfold KMeansClusterer.accuracy accuracy_score
    rw [hpred]
    norm_num
  refine ⟨hacc, ?_⟩
  exact kmeans_accuracy_one_implies_pure_clusters [0, 0, 1] [5, 5, 7] (by decide)
    (by decide) hacc (0, 5) (by decide)

/-- C9: the voted label array is initialized to zero and only cluster
indices 0 through 9 are voted on, so every point assigned to a cluster
index of 10 or more keeps the predicted label 0. -/
theorem kmeans_unseen_cluster_maps_to_zero (clusters ys : List Nat) :
    ∀ p ∈ clusters.zip (KMeansClusterer.predictedLabels clusters ys),
      10 ≤ p.1 → p.2 = 0 := by
  intro p hp hge
  rw [predictedLabels_eq, zip_map_self] at hp
  obtain ⟨a, _, rfl⟩ := List.mem_map.mp hp
  have : ¬ a < 10 := by omega
  simp only [if_neg this]

/-- Witness for C9: a point in cluster 12 is predicted as label 0. -/
theorem kmeans_unseen_cluster_maps_to_zero_witness :
    (12, 0) ∈ [12, 0].zip (KMeansClusterer.predictedLabels [12, 0] [3, 4]) ∧
      ((12, 0) : Nat × Nat).2 = 0 :=
  ⟨by decide, kmeans_unseen_cluster_maps_to_zero [12, 0] [3, 4] (12, 0) (by decide) (by decide)⟩

/-! ## Split stage (src/data_loader.py, lines 73-76)

`DigitsDataLoader.load_data` delegates the partition to scikit-learn's
`train_test_split(X_scaled, y, test_size=self.test_size,
random_state=self.random_state)`.  That routine is not part of this
repository, so the definitions below are modelled from the spec. -/

/-- The spec's error taxonomy (section 7). -/
inductive PipelineError
  | dataUnavailable
  | invalidConfiguration
deriving DecidableEq

/-- Modelled from the spec: a step of the seeded pseudo-random number
stream driving the shuffle (the concrete generator inside scikit-learn
is not in this repository; a linear congruential step stands in for
it). -/
def lcgNext (s : Nat) : Nat :=
  (s * 1103515245 + 12345) % 2 ^ 31

/-- Modelled from the spec: seeded pseudo-random shuffle, drawing one
element at a time at a position determined by the current generator
state.  The fuel argument equals the list length at the top call. -/
def seededShuffleAux {α : Type} : Nat → Nat → List α → List α
  | 0, _, _ => []
  | fuel + 1, s, l =>
    match l.rotate (s % l.length) with
    | [] => []
    | x :: rest => x :: seededShuffleAux fuel (lcgNext s) rest

/-- Modelled from the spec (section 4.3): "Assignment is a seeded
pseudo-random shuffle-then-cut"; the shuffle is a deterministic
function of the seed and the input ordering. -/
def seededShuffle {α : Type} (s : Nat) (l : List α) : List α :=
  seededShuffleAux l.length s l

/-- Modelled from the spec (sections 4.3, 7, 8): `split(ReducedDataset,
test_fraction, seed) -> (Train, Test)`; a test fraction outside the
open interval (0,1) is rejected with `InvalidConfiguration`; otherwise
the shuffled sequence is cut, the first `ceil(fraction * n)` shuffled
samples forming Test and the remainder forming Train (the repository
calls scikit-learn's `train_test_split`, whose validation and cut this
models). -/
def trainTestSplit {α : Type} (seed : Nat) (frac : ℚ) (l : List α) :
    Except PipelineError (List α × List α) :=
  if frac ≤ 0 ∨ 1 ≤ frac then Except.error PipelineError.invalidConfiguration
  else
    let p := seededShuffle seed l
    let nTest := (frac * (l.length : ℚ)).ceil.toNat
    Except.ok (p.drop nTest, p.take nTest)

/-- Modelled from the spec: one run of the split stage inside a process
whose ambient global random-generator state is `globalRng`.  The
repository passes an explicit `random_state` (src/data_loader.py line
74), so the partition reads only the given seed and the ambient state
is passed through untouched. -/
def loadDataSplitRun {α : Type} (globalRng seed : Nat) (frac : ℚ) (l : List α) :
    Except PipelineError (List α × List α) × Nat :=
  (trainTestSplit seed frac l, globalRng)

lemma seededShuffleAux_perm {α : Type} :
    ∀ (fuel s : Nat) (l : List α), l.length ≤ fuel →
      (seededShuffleAux fuel s l).Perm l := by
  intro fuel
  induction fuel with
  | zero =>
    intro s l hl
    have : l = [] := List.length_eq_zero.mp (Nat.le_zero.mp hl)
    subst this
    exact List.Perm.refl _
  | succ fuel ih =>
    intro s l hl
    show (seededShuffleAux (fuel + 1) s l).Perm l
    rw [seededShuffleAux]
    have hrotp : (l.rotate (s % l.length)).Perm l := List.rotate_perm l (s % l.length)
    cases hrot : l.rotate (s % l.length) with
    | nil =>
      rw [hrot] at hrotp
      have : l = [] := (List.Perm.nil_eq hrotp).symm
      subst this
      exact List.Perm.refl _
    | cons x rest =>
      rw [hrot] at hrotp
      have hlen : rest.length + 1 = l.length := by
        have := hrotp.length_eq
        simpa using this
      have hrest : rest.length ≤ fuel := by omega
      exact ((ih (lcgNext s) rest hrest).cons x).trans hrotp

lemma seededShuffle_perm {α : Type} (s : Nat) (l : List α) :
    (seededShuffle s l).Perm l :=
  seededShuffleAux_perm l.length s l (Nat.le_refl _)

/-- C4: with a fixed seed, fraction and input ordering, the split is a
deterministic function: it reads nothing from the ambient
random-generator state, so two runs under arbitrary (and arbitrarily
different) ambient states produce the identical Train/Test partition,
and so does a second run in the same process after the first. -/
theorem trainTestSplit_deterministic {α : Type} (g g' seed : Nat) (frac : ℚ)
    (l : List α) :
    (loadDataSplitRun g seed frac l).1 = (loadDataSplitRun g' seed frac l).1 ∧
      (loadDataSplitRun ((loadDataSplitRun g seed frac l).2) seed frac l).1
        = (loadDataSplitRun g seed frac l).1 :=
  ⟨rfl, rfl⟩

/-- C5: for a valid test fraction the split succeeds and Train and Test
together contain every sample of the input exactly once (their
concatenation is a permutation of the input); when the input has no
duplicate samples, Train and Test share no sample. -/
theorem trainTestSplit_partition {α : Type} (seed : Nat) (frac : ℚ) (l : List α)
    (h0 : 0 < frac) (h1 : frac < 1) :
    ∃ tr te, trainTestSplit seed frac l = Except.ok (tr, te) ∧
      (tr ++ te).Perm l ∧ (l.Nodup → tr.Disjoint te) := by
  have hguard : ¬ (frac ≤ 0 ∨ 1 ≤ frac) := by
    push_neg
    exact ⟨h0, h1⟩
  have hperm :
      ((seededShuffle seed l).drop ((frac * (l.length : ℚ)).ceil.toNat)
          ++ (seededShuffle seed l).take ((frac * (l.length : ℚ)).ceil.toNat)).Perm l := by
    have hcut := List.take_append_drop ((frac * (l.length : ℚ)).ceil.toNat)
      (seededShuffle seed l)
    have h2 := @List.perm_append_comm _
      ((seededShuffle seed l).drop ((frac * (l.length : ℚ)).ceil.toNat))
      ((seededShuffle seed l).take ((frac * (l.length : ℚ)).ceil.toNat))
    rw [hcut] at h2
    exact h2.trans (seededShuffle_perm seed l)
  refine ⟨(seededShuffle seed l).drop ((frac * (l.length : ℚ)).ceil.toNat),
    (seededShuffle seed l).take ((frac * (l.length : ℚ)).ceil.toNat), ?_, hperm, ?_⟩
  · unfold trainTestSplit
    rw [if_neg hguard]
  · intro hnd
    have hnodup := hperm.nodup_iff.mpr hnd
    exact (List.nodup_append.mp hnodup).2.2

/-- Witness for C5 at a concrete seed, fraction and input. -/
theorem trainTestSplit_partition_witness :
    ∃ tr te, trainTestSplit 42 (3 / 10) [0, 1, 2, 3] = Except.ok (tr, te) ∧
      (tr ++ te).Perm [0, 1, 2, 3] ∧ ([0, 1, 2, 3].Nodup → tr.Disjoint te) :=
  trainTestSplit_partition 42 (3 / 10) [0, 1, 2, 3] (by norm_num) (by norm_num)

/-- C6: the split rejects every test fraction outside the open interval
(0,1) with `InvalidConfiguration`, producing no partition. -/
theorem trainTestSplit_rejects_degenerate_fraction {α : Type} (seed : Nat)
    (frac : ℚ) (l : List α) (h : frac ≤ 0 ∨ 1 ≤ frac) :
    trainTestSplit seed frac l = Except.error PipelineError.invalidConfiguration := by
  unfold trainTestSplit
  rw [if_pos h]

/-- Witness for C6: the fractions 0 and 1 are both rejected. -/
theorem trainTestSplit_rejects_degenerate_fraction_witness :
    trainTestSplit 42 0 [0, 1] = Except.error PipelineError.invalidConfiguration ∧
      trainTestSplit 42 1 [0, 1] = Except.error PipelineError.invalidConfiguration :=
  ⟨trainTestSplit_rejects_degenerate_fraction 42 0 [0, 1] (Or.inl le_rfl),
    trainTestSplit_rejects_degenerate_fraction 42 1 [0, 1] (Or.inr le_rfl)⟩

/-! ## Feature reduction validation and pipeline staging (C7)

`DigitsDataLoader.load_data` (src/data_loader.py lines 65-66) passes
the configured component count to scikit-learn's `PCA` and fits it; the
range validation happens inside the library, not under src/, so it is
modelled from the spec here.  `main` (src/main.py) only trains the two
models after `loader.load_data()` has returned, so a reduction failure
precedes all training. -/

/-- The observable stages of one run of `main`, in source order:
`load_data` performs reduction, scaling and the split (src/data_loader.py
lines 64-76), then `main` trains the classifier and the clusterer
(src/main.py lines 60-70). -/
inductive PipelineEv
  | reduceDone
  | scaleDone
  | splitDone
  | classifierTrained
  | clustererTrained
deriving DecidableEq

/-- Modelled from the spec (sections 4.2, 7): reducing to a component
count below 1 or above the raw feature dimension fails with
`InvalidConfiguration`; the validation is scikit-learn PCA code, absent
from src/.  The function returns the trace of completed stages together
with the error, if any: an invalid component count aborts the run
before any stage completes, in particular before either model is
trained; an invalid test fraction aborts after reduction and scaling
but still before training. -/
def runMainStages (components rawDim : Nat) (frac : ℚ) :
    List PipelineEv × Option PipelineError :=
  if components < 1 ∨ rawDim < components then
    ([], some PipelineError.invalidConfiguration)
  else if frac ≤ 0 ∨ 1 ≤ frac then
    ([PipelineEv.reduceDone, PipelineEv.scaleDone],
      some PipelineError.invalidConfiguration)
  else
    ([PipelineEv.reduceDone, PipelineEv.scaleDone, PipelineEv.splitDone,
      PipelineEv.classifierTrained, PipelineEv.clustererTrained], none)

/-- C7: a component count below 1 or above the raw feature dimension
makes the run fail with `InvalidConfiguration`, and no training stage
is reached. -/
theorem reduce_invalid_components_fails_before_training
    (components rawDim : Nat) (frac : ℚ)
    (h : components < 1 ∨ rawDim < components) :
    (runMainStages components rawDim frac).2 = some PipelineError.invalidConfiguration ∧
      PipelineEv.classifierTrained ∉ (runMainStages components rawDim frac).1 ∧
      PipelineEv.clustererTrained ∉ (runMainStages components rawDim frac).1 := by
  unfold runMainStages
  rw [if_pos h]
  exact ⟨rfl, List.not_mem_nil _, List.not_mem_nil _⟩

/-- Witness for C7: requesting 65 components out of 64 raw features
aborts before training. -/
theorem reduce_invalid_components_fails_before_training_witness :
    (runMainStages 65 64 (3 / 10)).2 = some PipelineError.invalidConfiguration ∧
      PipelineEv.classifierTrained ∉ (runMainStages 65 64 (3 / 10)).1 ∧
      PipelineEv.clustererTrained ∉ (runMainStages 65 64 (3 / 10)).1 :=
  reduce_invalid_components_fails_before_training 65 64 (3 / 10) (by omega)

/-! ## Simplified two-cluster chart: convex-hull outline (C8)

`DataVisualizer.plot_simple_clusters` (src/visualizer.py lines
195-211): for each of the two selected clusters it draws the hull
outline only under `if np.sum(mask) > 2`, and the hull computation and
its plotting sit in a `try`/`except: pass` block, so a degenerate hull
is skipped silently. -/

/-- Drawing primitives emitted by the hull block. -/
inductive DrawCmd
  | hullEdges
  | hullOutline
deriving DecidableEq

/-- A raised error of the hull computation (`scipy.spatial.ConvexHull`
on degenerate input). -/
inductive RenderError
  | hullError
deriving DecidableEq

/-- The hull-outline block of `plot_simple_clusters` for one cluster
with `n` member points (lines 195-211): when `n > 2`, run the guarded
hull attempt, whose outcome `hullResult` abstracts ConvexHull plus the
edge and outline plotting (`Except.ok` with the emitted commands, or a
raised error); a raised error is swallowed by `except: pass`.  When
`n ≤ 2` the block emits nothing.  The block itself never propagates an
error. -/
def renderClusterOutline (n : Nat)
    (hullResult : Except RenderError (List DrawCmd)) :
    Except RenderError (List DrawCmd) :=
  if 2 < n then
    match hullResult with
    | Except.ok cmds => Except.ok cmds
    | Except.error _ => Except.ok []
  else Except.ok []

/-- C8: a selected cluster with at most 2 members gets no hull outline
and causes no error; the block never raises for any cluster; and a
nonempty outline is only ever drawn for a cluster with more than two
members. -/
theorem simple_clusters_hull_skip :
    (∀ (n : Nat) (hr : Except RenderError (List DrawCmd)), n ≤ 2 →
        renderClusterOutline n hr = Except.ok []) ∧
      (∀ (n : Nat) (hr : Except RenderError (List DrawCmd)),
        ∃ cmds, renderClusterOutline n hr = Except.ok cmds) ∧
      (∀ (n : Nat) (hr : Except RenderError (List DrawCmd)) (cmds : List DrawCmd),
        renderClusterOutline n hr = Except.ok cmds → cmds ≠ [] → 2 < n) := by
  refine ⟨?_, ?_, ?_⟩
  · intro n hr hn
    unfold renderClusterOutline
    rw [if_neg (by omega)]
  · intro n hr
    unfold renderClusterOutline
    by_cases h : 2 < n
    · rw [if_pos h]
      cases hr with
      | ok cmds => exact ⟨cmds, rfl⟩
      | error e => exact ⟨[], rfl⟩
    · rw [if_neg h]
      exact ⟨[], rfl⟩
  · intro n hr cmds hok hne
    by_contra hnot
    unfold renderClusterOutline at hok
    rw [if_neg hnot] at hok
    exact hne (Except.ok.inj hok).symm

/-- Witness for C8: a two-member cluster draws nothing and raises
nothing even when the hull computation would fail. -/
theorem simple_clusters_hull_skip_witness :
    renderClusterOutline 2 (Except.error RenderError.hullError) = Except.ok [] :=
  simple_clusters_hull_skip.1 2 (Except.error RenderError.hullError) (by omega)

/-! ## Figure lifecycle of the chart renderers (C3)

Each chart method of `DataVisualizer` opens one matplotlib figure and
calls `plt.close()` as its last statement, with no `try`/`finally` and
no context manager around the body.  The model below replays a chart
method as a sequence of operations, any one of which (except the
`try/except`-guarded hull block) may raise; a raise aborts the rest of
the sequence, exactly as an uncaught Python exception would. -/

/-- One operation of a chart method: opening the figure
(`plt.figure`/`plt.subplots`), a plain drawing or IO call that may
raise, the hull block of `plot_simple_clusters` whose interior raise is
swallowed by `except: pass`, and `plt.close()`. -/
inductive FigOp
  | openFig
  | plain
  | guardedPlain
  | closeFig
deriving DecidableEq

/-- Replay of a chart method: `ops` in order, `failIdx` the position of
the operation the library makes raise on this run (`none` for a clean
run), `i` the position counter, `c` the number of currently open
figures.  Returns the open-figure count at exit and whether the method
returned normally (`true`) or was aborted by an uncaught exception
(`false`).  A raise at a `guardedPlain` op is caught inside the op, so
the replay continues. -/
def runFigOpsAux : List FigOp → Option Nat → Nat → Nat → Nat × Bool
  | [], _, _, c => (c, true)
  | FigOp.guardedPlain :: rest, failIdx, i, c => runFigOpsAux rest failIdx (i + 1) c
  | op :: rest, failIdx, i, c =>
    if failIdx = some i then (c, false)
    else
      match op with
      | FigOp.openFig => runFigOpsAux rest failIdx (i + 1) (c + 1)
      | FigOp.closeFig => runFigOpsAux rest failIdx (i + 1) (c - 1)
      | _ => runFigOpsAux rest failIdx (i + 1) c

/-- Replay a whole chart method from a clean state. -/
def runFigOps (ops : List FigOp) (failIdx : Option Nat) : Nat × Bool :=
  runFigOpsAux ops failIdx 0 0

/-- `DataVisualizer.plot_combined_boundaries` (src/visualizer.py lines
38-83) as an operation sequence: mesh-grid construction, the two model
predictions, `plt.figure` (line 59), contourf, contour, scatter, title,
xlabel, ylabel, then either `plt.savefig` and the path print (lines
77-78) or `plt.show` (line 80), and finally `plt.close()` (line 83) —
which is not inside any `finally`. -/
def plotCombinedBoundariesOps (hasPath : Bool) : List FigOp :=
  [FigOp.plain, FigOp.plain, FigOp.openFig, FigOp.plain, FigOp.plain, FigOp.plain,
    FigOp.plain, FigOp.plain, FigOp.plain]
    ++ (if hasPath then [FigOp.plain, FigOp.plain] else [FigOp.plain])
    ++ [FigOp.closeFig]

/-- `DataVisualizer.plot_simple_clusters` (src/visualizer.py lines
153-242) as an operation sequence: `plt.subplots` (line 167),
facecolor and unique-cluster setup, then for each of the two selected
clusters a scatter call and — when the cluster has more than two
members — the `try`-guarded hull block (lines 196-211); `big1`/`big2`
say whether that block is present for the respective cluster.  Then the
axis styling, `plt.savefig` plus print or `plt.show`, and `plt.close()`
(line 242), again with no `finally`. -/
def plotSimpleClustersOps (hasPath big1 big2 : Bool) : List FigOp :=
  [FigOp.openFig, FigOp.plain, FigOp.plain]
    ++ ([FigOp.plain] ++ (if big1 then [FigOp.guardedPlain] else []))
    ++ ([FigOp.plain] ++ (if big2 then [FigOp.guardedPlain] else []))
    ++ [FigOp.plain, FigOp.plain, FigOp.plain]
    ++ (if hasPath then [FigOp.plain, FigOp.plain] else [FigOp.plain])
    ++ [FigOp.closeFig]

lemma runFigOpsAux_none_of_ge :
    ∀ (ops : List FigOp) (k i c : Nat), i + ops.length ≤ k →
      runFigOpsAux ops (some k) i c = runFigOpsAux ops none i c := by
  intro ops
  induction ops with
  | nil => intro k i c _; rfl
  | cons op rest ih =>
    intro k i c hk
    have hlen : rest.length + 1 = (op :: rest).length := by simp
    have hne : ¬ ((some k : Option Nat) = some i) := by
      intro h
      have : k = i := Option.some.inj h
      simp [List.length_cons] at hk
      omega
    have hrec : i + 1 + rest.length ≤ k := by
      simp [List.length_cons] at hk
      omega
    cases op with
    | openFig => simp only [runFigOpsAux, if_neg hne]; exact ih k (i + 1) (c + 1) hrec
    | plain => simp only [runFigOpsAux, if_neg hne]; exact ih k (i + 1) c hrec
    | guardedPlain => simp only [runFigOpsAux]; exact ih k (i + 1) c hrec
    | closeFig => simp only [runFigOpsAux, if_neg hne]; exact ih k (i + 1) (c - 1) hrec

/-- C3 counterexample: in `plot_combined_boundaries` with an output
path, an exception raised by `plt.savefig` (operation index 9) exits
the method exceptionally with the figure still open — `plt.close()` is
only reached on the normal path, so the drawing surface is not released
on every exit path. -/
theorem plot_close_skipped_on_exception :
    (runFigOps (plotCombinedBoundariesOps true) (some 9)).2 = false ∧
      (runFigOps (plotCombinedBoundariesOps true) (some 9)).1 = 1 := by
  constructor <;> rfl

/-- C3 amended: each of the two cited chart methods closes its figure
on every normal completion, and also on every run in which only the
`try`-guarded hull block raises; but an uncaught exception at any other
operation skips the trailing `plt.close()`. -/
theorem plots_close_on_normal_exit (hasPath big1 big2 : Bool) (failIdx : Option Nat) :
    ((runFigOps (plotCombinedBoundariesOps hasPath) failIdx).2 = true →
        (runFigOps (plotCombinedBoundariesOps hasPath) failIdx).1 = 0) ∧
      ((runFigOps (plotSimpleClustersOps hasPath big1 big2) failIdx).2 = true →
        (runFigOps (plotSimpleClustersOps hasPath big1 big2) failIdx).1 = 0) := by
  cases failIdx with
  | none => cases hasPath <;> cases big1 <;> cases big2 <;> exact ⟨fun _ => rfl, fun _ => rfl⟩
  | some k =>
    by_cases hk : k < 13
    · interval_cases k <;> cases hasPath <;> cases big1 <;> cases big2 <;>
        exact ⟨by decide, by decide⟩
    · have h1 : (plotCombinedBoundariesOps hasPath).length ≤ k := by
        cases hasPath <;> simp [plotCombinedBoundariesOps] <;> omega
      have h2 : (plotSimpleClustersOps hasPath big1 big2).length ≤ k := by
        cases hasPath <;> cases big1 <;> cases big2 <;>
          simp [plotSimpleClustersOps] <;> omega
      unfold runFigOps
      rw [runFigOpsAux_none_of_ge _ k 0 0 (by omega),
        runFigOpsAux_none_of_ge _ k 0 0 (by omega)]
      cases hasPath <;> cases big1 <;> cases big2 <;> exact ⟨fun _ => rfl, fun _ => rfl⟩

/-- Witness for the amended C3: a clean run of both methods ends with
no open figure. -/
theorem plots_close_on_normal_exit_witness :
    (runFigOps (plotCombinedBoundariesOps true) none).1 = 0 ∧
      (runFigOps (plotSimpleClustersOps true true false) none).1 = 0 :=
  ⟨(plots_close_on_normal_exit true true false none).1 (by decide),
    (plots_close_on_normal_exit true true false none).2 (by decide)⟩

/-! ## Evaluation driver: which data each score is computed on (C10)

`main` (src/main.py lines 59-71) fits the classifier on
`(X_train, y_train)` and scores it with
`log_reg.accuracy(X_test, y_test)`, then fits the clusterer on
`X_train` and scores it with `kmeans.accuracy(X_train, y_train)` —
whose source reads the fitted assignment `self.model.labels_` of the
training points together with `y_train`.  The two fitting procedures
are external black boxes, passed in as functions: `fitLr` yields the
trained point-to-label predictor, `fitKm` yields the fitted cluster
assignment (`labels_`) of the training points. -/

namespace LogisticRegressionClassifier

/-- `LogisticRegressionClassifier.accuracy(X_test, y_test)`
(src/models/logistic_regression_classifier.py lines 52-67): predict the
given points and take the exact-match fraction against the given
labels. -/
def accuracy {α : Type} (predict : α → Nat) (xs : List α) (ys : List Nat) : ℚ :=
  accuracy_score ys (xs.map predict)

end LogisticRegressionClassifier

/-- The two accuracy numbers reported by one run of `main`. -/
structure MainScores where
  accLr : ℚ
  accKm : ℚ
deriving DecidableEq

/-- `main`'s evaluation (src/main.py lines 59-71): the classifier is
fit on the train subset and scored on the test subset; the clusterer is
fit on the train subset and scored via `kmeans.accuracy(X_train,
y_train)` on the train subset itself. -/
def mainScores {α : Type} (fitLr : List α → List Nat → α → Nat)
    (fitKm : List α → List Nat) (xTrain : List α) (yTrain : List Nat)
    (xTest : List α) (yTest : List Nat) : MainScores :=
  { accLr := LogisticRegressionClassifier.accuracy (fitLr xTrain yTrain) xTest yTest
    accKm := KMeansClusterer.accuracy (fitKm xTrain) yTrain }

/-- C10: the clusterer score reported by `main` is a function of the
training subset alone — it is unchanged under any replacement of the
test subset — while the classifier score does change with the test
subset (witnessed concretely) even as the clusterer score stays fixed:
the two reported numbers are evaluated on different data sets. -/
theorem main_scores_evaluated_on_different_sets :
    (∀ (α : Type) (fitLr : List α → List Nat → α → Nat) (fitKm : List α → List Nat)
        (xTrain : List α) (yTrain : List Nat) (xTest xTest' : List α)
        (yTest yTest' : List Nat),
        (mainScores fitLr fitKm xTrain yTrain xTest yTest).accKm
          = (mainScores fitLr fitKm xTrain yTrain xTest' yTest').accKm) ∧
      (∃ (fitLr : List Nat → List Nat → Nat → Nat) (fitKm : List Nat → List Nat)
          (xTrain : List Nat) (yTrain : List Nat) (xTest : List Nat)
          (yTest yTest' : List Nat),
          (mainScores fitLr fitKm xTrain yTrain xTest yTest).accLr
              ≠ (mainScores fitLr fitKm xTrain yTrain xTest yTest').accLr ∧
            (mainScores fitLr fitKm xTrain yTrain xTest yTest).accKm
              = (mainScores fitLr fitKm xTrain yTrain xTest yTest').accKm) := by
  constructor
  · intro α fitLr fitKm xTrain yTrain xTest xTest' yTest yTest'
    rfl
  · refine ⟨fun _ _ => id, fun xs => List.replicate xs.length 0, [0], [0], [1], [1], [2],
      ?_, rfl⟩
    show LogisticRegressionClassifier.accuracy id [1] [1]
        ≠ LogisticRegressionClassifier.accuracy id [1] [2]
    unfold LogisticRegressionClassifier.accuracy accuracy_score
    norm_num
